import Mathlib

/-!
Verification development for the Nakama game-module backend
(`backend/nakama-module/main.go` + `backend/nakama-module/contract.go`).

The Go module is embedded shallowly:

* A Go `map[string]V` is embedded as an association list `List (String × V)`
  (namespace `GoMap`): lookup returns the first binding, assignment replaces
  the first binding in place or appends a new one.  A real Go map has no
  duplicate keys; where a proof needs that fact it appears as a `Nodup`
  hypothesis on the key list.
* JSON marshalling/unmarshalling is the identity on the structured records,
  so the storage layer holds the structured values directly.  A stored
  inventory record keeps its two maps as `Option`s, because a legacy record
  may lack one of them (`nil` map after unmarshal) and `ensureProfileAndWallet`
  repairs that case.
* The per-user slice of the platform's key/value store is `UserStore`
  (the three records the module ever touches).  Storage reads always succeed
  (absent record = `none`, matching `readStorage` returning `""`), and the
  acceptance of a write by the platform is modelled separately
  (`platformAccepts`); the operation-level definitions record every
  `StorageWrite` request they issue in an explicit write log.
* Nondeterministic inputs of the Go code (`generateInstanceId()`,
  `time.Now()`, the runtime context's user id / username / env) are explicit
  parameters.
* `Wallet.gold` is a `float64` in the source; no arithmetic is ever done on
  it in scope, so it is embedded as `Int`.
* Go string indexing `userID[:8]` is by bytes; it is embedded as `String.take`
  (identical on ASCII identifiers).
-/

namespace CardGame

/-! ## Go map operations on association lists -/

namespace GoMap

/-- `m[k]` read (comma-ok form): the first binding of `k`, if any. -/
def find {V : Type} (m : List (String × V)) (k : String) : Option V :=
  match m with
  | [] => none
  | (k', v) :: rest => if k' = k then some v else find rest k

/-- `m[k] = v` assignment: replace the first binding of `k`, else append. -/
def insert {V : Type} (m : List (String × V)) (k : String) (v : V) :
    List (String × V) :=
  match m with
  | [] => [(k, v)]
  | (k', v') :: rest => if k' = k then (k, v) :: rest else (k', v') :: insert rest k v

/-- `m[k] += v` on an integer-valued map (absent key counts as 0). -/
def addTo (m : List (String × Int)) (k : String) (v : Int) : List (String × Int) :=
  match m with
  | [] => [(k, v)]
  | (k', v') :: rest => if k' = k then (k', v' + v) :: rest else (k', v') :: addTo rest k v

/-- The key list of a map. -/
def keys {V : Type} (m : List (String × V)) : List String := m.map Prod.fst

/-- The value list of a map (Go `range` over values). -/
def values {V : Type} (m : List (String × V)) : List V := m.map Prod.snd

end GoMap

/-! ## Contract constants (`contract.go`) -/

def CollectionProfile : String := "player/profile"
def CollectionWallet : String := "player/wallet"
def CollectionInventory : String := "player/inventory"
def StorageKeyProfile : String := "profile"
def StorageKeyWallet : String := "wallet"
def StorageKeyInventory : String := "inventory"

def AllowedStats : List String :=
  ["hp_max", "stamina_max", "mana_max", "melee", "ranged", "magic", "maneuver"]

def AllowedRarities : List String :=
  ["Common", "Uncommon", "Rare", "Epic", "Legendary", "Mythic"]

def AllowedSlots : List String := ["Weapon", "Armor", "Relic"]

def EquipmentSlotKeys : List String := ["weapon", "armor", "relic"]

def isAllowedStat (s : String) : Bool := AllowedStats.contains s

def isAllowedRarity (s : String) : Bool := AllowedRarities.contains s

def isAllowedItemSlot (s : String) : Bool := AllowedSlots.contains s

def isAllowedEquipmentSlotName (s : String) : Bool := EquipmentSlotKeys.contains s

/-! ## JSON record types (`main.go`) -/

structure Profile where
  username : String
  createdAt : String
deriving DecidableEq, Repr

structure Wallet where
  gold : Int
deriving DecidableEq, Repr

structure ItemInstance where
  instanceId : String
  templateId : String
  rarity : String
  slot : String
  bonuses : List (String × Int)
  passive : String
  createdAt : String
deriving DecidableEq, Repr

structure UnitInstance where
  instanceId : String
  templateId : String
  rarity : String
  stats : List (String × Int)
  equipment : List (String × String)
deriving DecidableEq, Repr

/-- In-memory inventory (`initInventory` guarantees both maps non-nil). -/
structure Inventory where
  items : List (String × ItemInstance)
  units : List (String × UnitInstance)
deriving DecidableEq, Repr

/-- A persisted inventory record; a legacy/corrupt record may lack a map
(`nil` after JSON unmarshal), hence the `Option`s. -/
structure StoredInventory where
  items : Option (List (String × ItemInstance))
  units : Option (List (String × UnitInstance))
deriving DecidableEq, Repr

/-- The three per-user records the module touches; `none` = record absent. -/
structure UserStore where
  profile : Option Profile
  wallet : Option Wallet
  inventory : Option StoredInventory
deriving DecidableEq, Repr

def emptyStore : UserStore := { profile := none, wallet := none, inventory := none }

def toStored (inv : Inventory) : StoredInventory :=
  { items := some inv.items, units := some inv.units }

/-! ## Error codes and results -/

def CodeBadRequest : Nat := 3
def CodeNotFound : Nat := 5
def CodePermission : Nat := 7
def CodeInvalidArg : Nat := 3

structure ErrResp where
  code : Nat
  msg : String
deriving DecidableEq, Repr

def resultIsError {α : Type} : Except ErrResp α → Bool
  | .error _ => true
  | .ok _ => false

/-! ## Storage writes -/

/-- The serialized value of a `StorageWrite` (JSON round-trip is identity). -/
inductive StorageValue
  | profileV (p : Profile)
  | walletV (w : Wallet)
  | inventoryV (inv : Inventory)
deriving DecidableEq, Repr

/-- One `runtime.StorageWrite` request as `writeStorage` builds it. -/
structure StorageWriteReq where
  collection : String
  key : String
  userID : String
  value : StorageValue
  version : String
  permissionRead : Nat
  permissionWrite : Nat
deriving DecidableEq, Repr

/-- `writeStorage`: the single write request the helper always issues
(version `"*"`, read/write permissions `NO_READ`/`NO_WRITE` = 0/0). -/
def writeReq (userID collection key : String) (value : StorageValue) : StorageWriteReq :=
  { collection := collection
    key := key
    userID := userID
    value := value
    version := "*"
    permissionRead := 0
    permissionWrite := 0 }

/-- Modelled from the spec: the acceptance rule of the out-of-scope storage
platform's `write(..., expectedVersion) -> ok/error` interface, which the
spec exposes with optimistic-concurrency version tokens.  Per the platform's
documented token semantics, an empty version is an unconditional overwrite,
and the reserved token `"*"` accepts the write only when the record does not
already exist; any other token must match the record's current version hash
(`currentVersion`, `none` when the record is absent). -/
def platformAccepts (currentVersion : Option String) (req : StorageWriteReq) : Bool :=
  if req.version = "" then true
  else if req.version = "*" then currentVersion.isNone
  else currentVersion = some req.version

/-! ## Validation (`validateUnitStats`, `validateBonuses`) -/

def validateUnitStats (stats : List (String × Int)) : Except String Unit :=
  if stats.length ≠ 7 then
    .error "stats must contain exactly the 7 allowed keys"
  else
    match stats.find? (fun p => !isAllowedStat p.1) with
    | some p => .error ("invalid stat key: " ++ p.1)
    | none =>
      match AllowedStats.find? (fun k => (GoMap.find stats k).isNone) with
      | some k => .error ("missing required stat: " ++ k)
      | none => .ok ()

def validateBonuses (bonuses : List (String × Int)) : Except String Unit :=
  match bonuses.find? (fun p => !isAllowedStat p.1) with
  | some p => .error ("invalid bonus key: " ++ p.1)
  | none => .ok ()

/-! ## `ensureProfileAndWallet` (bootstrap / loadOrInit) -/

/-- Partial result of one bootstrap step: the record handed back to the
caller, the write requests issued, and the store afterwards. -/
structure PartOut (α : Type) where
  val : α
  writes : List StorageWriteReq
  store : UserStore
deriving DecidableEq, Repr

/-- The username defaulting of `ensureProfileAndWallet`: a freshly created
profile takes the supplied username, or the first 8 bytes of the user id
when none was supplied. -/
def defaultUsername (userID username : String) : String :=
  if username = "" then (if userID.length > 8 then userID.take 8 else userID) else username

def ensureProfile (userID username now : String) (store : UserStore) : PartOut Profile :=
  match store.profile with
  | some p => ⟨p, [], store⟩
  | none =>
    let p : Profile := { username := defaultUsername userID username, createdAt := now }
    ⟨p, [writeReq userID CollectionProfile StorageKeyProfile (.profileV p)],
      { store with profile := some p }⟩

def ensureWallet (userID : String) (store : UserStore) : PartOut Wallet :=
  match store.wallet with
  | some w => ⟨w, [], store⟩
  | none =>
    let w : Wallet := { gold := 0 }
    ⟨w, [writeReq userID CollectionWallet StorageKeyWallet (.walletV w)],
      { store with wallet := some w }⟩

/-- The in-memory inventory built from the stored record: absent record =
fresh empty inventory, and a record missing one of its maps is repaired to the
empty map. -/
def repairInventory (si : Option StoredInventory) : Inventory :=
  match si with
  | none => { items := [], units := [] }
  | some si => { items := si.items.getD [], units := si.units.getD [] }

structure EnsureOut where
  profile : Profile
  wallet : Wallet
  inv : Inventory
  store : UserStore
  writes : List StorageWriteReq
deriving DecidableEq, Repr

/-- `ensureProfileAndWallet`: read the three records; create and persist a
profile/wallet when absent; never persist the inventory here, only repair it
in memory. -/
def ensureProfileAndWallet (userID username now : String) (store : UserStore) : EnsureOut :=
  let pr := ensureProfile userID username now store
  let wa := ensureWallet userID pr.store
  { profile := pr.val
    wallet := wa.val
    inv := repairInventory wa.store.inventory
    store := wa.store
    writes := pr.writes ++ wa.writes }

/-! ## The five RPC operations -/

deriving instance DecidableEq for Except

/-- Result of one RPC call: the response or error, the store afterwards, and
the log of storage-write requests issued (in order). -/
structure RpcOut (α : Type) where
  res : Except ErrResp α
  store : UserStore
  writes : List StorageWriteReq
deriving DecidableEq, Repr

/-- A request body as the handler sees it: absent (`payload == ""`),
unparseable JSON, or a parsed value. -/
inductive Payload (α : Type)
  | missing
  | invalid
  | ok (val : α)
deriving DecidableEq, Repr

/-- `rpc_get_state` response body. -/
structure GetStateOut where
  profile : Profile
  wallet : Wallet
  itemsCount : Nat
  unitsCount : Nat
  units : List UnitInstance
deriving DecidableEq, Repr

/-- `rpcGetState` (`uid = ""` models a missing/non-string user id in the
context, as in `mustGetUserId`). -/
def rpcGetState (uid username now : String) (store : UserStore) : RpcOut GetStateOut :=
  if uid = "" then ⟨.error ⟨CodePermission, "user_id_required"⟩, store, []⟩
  else
    let en := ensureProfileAndWallet uid username now store
    ⟨.ok { profile := en.profile
           wallet := en.wallet
           itemsCount := en.inv.items.length
           unitsCount := en.inv.units.length
           units := GoMap.values en.inv.units },
      en.store, en.writes⟩

structure CreateUnitPayload where
  templateId : String
  rarity : String
  stats : List (String × Int)
deriving DecidableEq, Repr

/-- `rpcCreateUnit` (`newId` is the value `generateInstanceId()` returns,
`now` the formatted current time). -/
def rpcCreateUnit (uid : String) (payload : Payload CreateUnitPayload)
    (newId now : String) (store : UserStore) : RpcOut UnitInstance :=
  if uid = "" then ⟨.error ⟨CodePermission, "user_id_required"⟩, store, []⟩
  else match payload with
  | .missing => ⟨.error ⟨CodeInvalidArg, "missing_payload"⟩, store, []⟩
  | .invalid => ⟨.error ⟨CodeInvalidArg, "invalid_json"⟩, store, []⟩
  | .ok inp =>
    if inp.templateId = "" then ⟨.error ⟨CodeInvalidArg, "missing_templateId"⟩, store, []⟩
    else if !isAllowedRarity inp.rarity then
      ⟨.error ⟨CodeInvalidArg, "invalid_rarity"⟩, store, []⟩
    else match validateUnitStats inp.stats with
    | .error e => ⟨.error ⟨CodeInvalidArg, e⟩, store, []⟩
    | .ok _ =>
      let en := ensureProfileAndWallet uid "" now store
      let unit : UnitInstance :=
        { instanceId := newId
          templateId := inp.templateId
          rarity := inp.rarity
          stats := inp.stats
          equipment := [("weapon", ""), ("armor", ""), ("relic", "")] }
      let inv' : Inventory := { en.inv with units := GoMap.insert en.inv.units newId unit }
      ⟨.ok unit, { en.store with inventory := some (toStored inv') },
        en.writes ++ [writeReq uid CollectionInventory StorageKeyInventory (.inventoryV inv')]⟩

structure GrantItemPayload where
  adminSecret : String
  templateId : String
  rarity : String
  slot : String
  bonuses : List (String × Int)
  passive : String
  targetUserId : String
deriving DecidableEq, Repr

/-- The server-side admin secret as `rpcGrantItem` resolves it from the
runtime environment (`nil` env map or absent key resolve to `""`). -/
def envAdminSecret (env : Option (List (String × String))) : String :=
  match env with
  | none => ""
  | some e => (GoMap.find e "ADMIN_SECRET").getD ""

/-- `rpcGrantItem` (admin only; `uid` is the caller from the context, `""`
when unauthenticated; the store is the **target** user's). -/
def rpcGrantItem (uid : String) (env : Option (List (String × String)))
    (payload : Payload GrantItemPayload) (newId now : String) (store : UserStore) :
    RpcOut ItemInstance :=
  match payload with
  | .missing => ⟨.error ⟨CodeInvalidArg, "missing_payload"⟩, store, []⟩
  | .invalid => ⟨.error ⟨CodeInvalidArg, "invalid_json"⟩, store, []⟩
  | .ok inp =>
    if envAdminSecret env = "" ∨ inp.adminSecret ≠ envAdminSecret env then
      ⟨.error ⟨CodePermission, "admin_only"⟩, store, []⟩
    else if inp.targetUserId = "" ∧ uid = "" then
      ⟨.error ⟨CodeInvalidArg, "targetUserId_required_when_not_authenticated"⟩, store, []⟩
    else
      let targetUserID := if inp.targetUserId = "" then uid else inp.targetUserId
      if inp.templateId = "" ∨ !isAllowedRarity inp.rarity ∨ !isAllowedItemSlot inp.slot then
        ⟨.error ⟨CodeInvalidArg, "missing_or_invalid_templateId_rarity_or_slot"⟩, store, []⟩
      else match validateBonuses inp.bonuses with
      | .error e => ⟨.error ⟨CodeInvalidArg, e⟩, store, []⟩
      | .ok _ =>
        let en := ensureProfileAndWallet targetUserID "" now store
        let item : ItemInstance :=
          { instanceId := newId
            templateId := inp.templateId
            rarity := inp.rarity
            slot := inp.slot
            bonuses := inp.bonuses
            passive := inp.passive
            createdAt := now }
        let inv' : Inventory := { en.inv with items := GoMap.insert en.inv.items newId item }
        ⟨.ok item, { en.store with inventory := some (toStored inv') },
          en.writes ++
            [writeReq targetUserID CollectionInventory StorageKeyInventory (.inventoryV inv')]⟩

structure EquipItemPayload where
  unitInstanceId : String
  slotName : String
  itemInstanceId : Option String
deriving DecidableEq, Repr

/-- The Go slot-match condition of `rpcEquipItem` (lowercase slot name vs
capitalized item slot). -/
def slotMatches (slotName itemSlot : String) : Bool :=
  (slotName = "weapon" && itemSlot = "Weapon") ||
  (slotName = "armor" && itemSlot = "Armor") ||
  (slotName = "relic" && itemSlot = "Relic")

/-- `rpcEquipItem`: equip (`itemInstanceId` a non-empty id) or unequip
(`null`, dereferenced to `""`). -/
def rpcEquipItem (uid : String) (payload : Payload EquipItemPayload)
    (now : String) (store : UserStore) : RpcOut UnitInstance :=
  if uid = "" then ⟨.error ⟨CodePermission, "user_id_required"⟩, store, []⟩
  else match payload with
  | .missing => ⟨.error ⟨CodeInvalidArg, "missing_payload"⟩, store, []⟩
  | .invalid => ⟨.error ⟨CodeInvalidArg, "invalid_json"⟩, store, []⟩
  | .ok inp =>
    if inp.unitInstanceId = "" ∨ inp.slotName = "" then
      ⟨.error ⟨CodeInvalidArg, "missing_unitInstanceId_or_slotName"⟩, store, []⟩
    else if !isAllowedEquipmentSlotName inp.slotName then
      ⟨.error ⟨CodeInvalidArg, "slotName must be weapon, armor, or relic"⟩, store, []⟩
    else
      let en := ensureProfileAndWallet uid "" now store
      match GoMap.find en.inv.units inp.unitInstanceId with
      | none => ⟨.error ⟨CodeNotFound, "unit_not_found"⟩, en.store, en.writes⟩
      | some unit =>
        let itemInstanceId := inp.itemInstanceId.getD ""
        let newValue : Except ErrResp String :=
          if itemInstanceId = "" then .ok ""
          else match GoMap.find en.inv.items itemInstanceId with
          | none => .error ⟨CodeNotFound, "item_not_found"⟩
          | some item =>
            if !slotMatches inp.slotName item.slot then
              .error ⟨CodeInvalidArg, "item_slot_mismatch"⟩
            else .ok itemInstanceId
        match newValue with
        | .error e => ⟨.error e, en.store, en.writes⟩
        | .ok v =>
          let unit' : UnitInstance :=
            { unit with equipment := GoMap.insert unit.equipment inp.slotName v }
          let inv' : Inventory :=
            { en.inv with units := GoMap.insert en.inv.units inp.unitInstanceId unit' }
          ⟨.ok unit', { en.store with inventory := some (toStored inv') },
            en.writes ++ [writeReq uid CollectionInventory StorageKeyInventory (.inventoryV inv')]⟩

structure ComputeFinalStatsPayload where
  unitInstanceId : String
deriving DecidableEq, Repr

structure FinalStatsOut where
  unitInstanceId : String
  baseStats : List (String × Int)
  finalStats : List (String × Int)
deriving DecidableEq, Repr

/-- The first aggregation loop: `final[k] = unit.Stats[k]` over the canonical
keys, starting from an empty map (a Go map read of an absent key yields 0). -/
def baseInit (stats : List (String × Int)) : List (String × Int) :=
  AllowedStats.foldl (fun final k => GoMap.insert final k ((GoMap.find stats k).getD 0)) []

/-- The inner aggregation loop: `final[k] += v` for every bonus entry with a
canonical key. -/
def applyBonuses (final : List (String × Int)) (bonuses : List (String × Int)) :
    List (String × Int) :=
  match bonuses with
  | [] => final
  | (k, v) :: rest => applyBonuses (if isAllowedStat k then GoMap.addTo final k v else final) rest

/-- The outer aggregation loop over the unit's equipment values: skip empty
slots and slots whose item id is absent from the items map. -/
def applyEquipment (items : List (String × ItemInstance)) (final : List (String × Int))
    (equip : List (String × String)) : List (String × Int) :=
  match equip with
  | [] => final
  | (_, itemId) :: rest =>
    applyEquipment items
      (if itemId = "" then final
       else match GoMap.find items itemId with
       | none => final
       | some item => applyBonuses final item.bonuses)
      rest

/-- The aggregation of `rpcComputeFinalStats`: base + sum of equipped item
bonuses. -/
def computeFinal (items : List (String × ItemInstance)) (unit : UnitInstance) :
    List (String × Int) :=
  applyEquipment items (baseInit unit.stats) unit.equipment

/-- `rpcComputeFinalStats`. -/
def rpcComputeFinalStats (uid : String) (payload : Payload ComputeFinalStatsPayload)
    (now : String) (store : UserStore) : RpcOut FinalStatsOut :=
  if uid = "" then ⟨.error ⟨CodePermission, "user_id_required"⟩, store, []⟩
  else match payload with
  | .missing => ⟨.error ⟨CodeInvalidArg, "missing_payload"⟩, store, []⟩
  | .invalid => ⟨.error ⟨CodeInvalidArg, "invalid_json"⟩, store, []⟩
  | .ok inp =>
    if inp.unitInstanceId = "" then
      ⟨.error ⟨CodeInvalidArg, "missing_unitInstanceId"⟩, store, []⟩
    else
      let en := ensureProfileAndWallet uid "" now store
      match GoMap.find en.inv.units inp.unitInstanceId with
      | none => ⟨.error ⟨CodeNotFound, "unit_not_found"⟩, en.store, en.writes⟩
      | some unit =>
        ⟨.ok { unitInstanceId := inp.unitInstanceId
               baseStats := unit.stats
               finalStats := computeFinal en.inv.items unit },
          en.store, en.writes⟩

/-! ## Basic lemmas about the Go map embedding -/

namespace GoMap

theorem find_insert_self {V : Type} (m : List (String × V)) (k : String) (v : V) :
    find (insert m k v) k = some v := by
  induction m with
  | nil => simp [find, insert]
  | cons hd tl ih =>
    by_cases h : hd.1 = k
    · simp [insert, find, h]
    · simpa [insert, find, h] using ih

theorem find_insert_ne {V : Type} (m : List (String × V)) {k k' : String} (v : V)
    (h : k' ≠ k) : find (insert m k v) k' = find m k' := by
  induction m with
  | nil => simp [find, insert, Ne.symm h]
  | cons hd tl ih =>
    by_cases hh : hd.1 = k
    · simp [insert, find, hh, Ne.symm h]
    · simp only [insert, hh, if_false, find]
      by_cases hk' : hd.1 = k'
      · simp [hk']
      · simp [hk', ih]

theorem find_some_mem {V : Type} {m : List (String × V)} {k : String} {v : V}
    (h : find m k = some v) : (k, v) ∈ m := by
  induction m with
  | nil => simp [find] at h
  | cons hd tl ih =>
    by_cases hh : hd.1 = k
    · simp only [find, hh, if_true, Option.some.injEq] at h
      have hhd : hd = (k, v) := Prod.ext hh h
      rw [← hhd]
      exact List.mem_cons_self hd tl
    · simp only [find, hh, if_false] at h
      exact List.mem_cons_of_mem _ (ih h)

theorem mem_keys_of_find_some {V : Type} {m : List (String × V)} {k : String} {v : V}
    (h : find m k = some v) : k ∈ keys m := by
  have := find_some_mem h
  simpa [keys] using ⟨v, this⟩

theorem find_eq_none_of_not_mem_keys {V : Type} {m : List (String × V)} {k : String}
    (h : k ∉ keys m) : find m k = none := by
  cases hf : find m k with
  | none => rfl
  | some v => exact absurd (mem_keys_of_find_some hf) h

theorem keys_insert {V : Type} (m : List (String × V)) (k : String) (v : V) :
    keys (insert m k v) = if k ∈ keys m then keys m else keys m ++ [k] := by
  induction m with
  | nil => simp [insert, keys]
  | cons hd tl ih =>
    by_cases hh : hd.1 = k
    · simp [insert, keys, hh]
    · have hne : ¬k = hd.1 := fun hc => hh hc.symm
      simp only [insert, hh, if_false, keys, List.map_cons, List.mem_cons, hne,
        false_or] at ih ⊢
      rw [ih]
      by_cases hm : k ∈ List.map Prod.fst tl <;> simp [hm]

theorem keys_insert_of_mem {V : Type} {m : List (String × V)} {k : String} (v : V)
    (h : k ∈ keys m) : keys (insert m k v) = keys m := by
  simp [keys_insert, h]

theorem keys_insert_nodup {V : Type} {m : List (String × V)} (k : String) (v : V)
    (h : (keys m).Nodup) : (keys (insert m k v)).Nodup := by
  rw [keys_insert]
  by_cases hm : k ∈ keys m
  · simpa [hm] using h
  · rw [if_neg hm]
    exact List.Nodup.append h (List.nodup_singleton k)
      (fun a ha hk => hm ((List.mem_singleton.mp hk) ▸ ha))

theorem mem_insert {V : Type} {m : List (String × V)} {k : String} {v : V}
    {p : String × V} (hnd : (keys m).Nodup) (hp : p ∈ insert m k v) :
    p = (k, v) ∨ (p ∈ m ∧ p.1 ≠ k) := by
  induction m with
  | nil => simp only [insert, List.mem_singleton] at hp; exact Or.inl hp
  | cons hd tl ih =>
    simp only [keys, List.map_cons, List.nodup_cons] at hnd
    by_cases hh : hd.1 = k
    · subst hh
      simp only [insert, if_true] at hp
      rcases List.mem_cons.mp hp with h1 | h1
      · exact Or.inl h1
      · refine Or.inr ⟨List.mem_cons_of_mem _ h1, fun hc => hnd.1 ?_⟩
        rw [← hc]
        exact List.mem_map_of_mem Prod.fst h1
    · simp only [insert, hh, if_false] at hp
      rcases List.mem_cons.mp hp with h1 | h1
      · exact Or.inr ⟨h1 ▸ List.mem_cons_self hd tl, h1 ▸ hh⟩
      · rcases ih hnd.2 h1 with h2 | h2
        · exact Or.inl h2
        · exact Or.inr ⟨List.mem_cons_of_mem _ h2.1, h2.2⟩

end GoMap

/-! ## Enum membership -/

theorem isAllowedStat_iff {s : String} : isAllowedStat s = true ↔ s ∈ AllowedStats := by
  simp [isAllowedStat]

theorem isAllowedEquipmentSlotName_iff {s : String} :
    isAllowedEquipmentSlotName s = true ↔ s ∈ EquipmentSlotKeys := by
  simp [isAllowedEquipmentSlotName]

/-! ## Characterization of the bootstrap path -/

theorem ensure_full {s : UserStore} {p : Profile} {w : Wallet} (u un n : String)
    (hp : s.profile = some p) (hw : s.wallet = some w) :
    ensureProfileAndWallet u un n s = ⟨p, w, repairInventory s.inventory, s, []⟩ := by
  simp [ensureProfileAndWallet, ensureProfile, ensureWallet, hp, hw]

theorem ensure_fresh {s : UserStore} (u un n : String)
    (hp : s.profile = none) (hw : s.wallet = none) :
    ensureProfileAndWallet u un n s =
      ⟨⟨defaultUsername u un, n⟩, ⟨0⟩, repairInventory s.inventory,
       { s with profile := some ⟨defaultUsername u un, n⟩, wallet := some ⟨0⟩ },
       [writeReq u CollectionProfile StorageKeyProfile (.profileV ⟨defaultUsername u un, n⟩),
        writeReq u CollectionWallet StorageKeyWallet (.walletV ⟨0⟩)]⟩ := by
  simp [ensureProfileAndWallet, ensureProfile, ensureWallet, hp, hw]

theorem ensure_store_inventory (u un n : String) (s : UserStore) :
    (ensureProfileAndWallet u un n s).store.inventory = s.inventory := by
  cases hp : s.profile <;> cases hw : s.wallet <;>
    simp [ensureProfileAndWallet, ensureProfile, ensureWallet, hp, hw]

theorem ensure_inv (u un n : String) (s : UserStore) :
    (ensureProfileAndWallet u un n s).inv = repairInventory s.inventory := by
  cases hp : s.profile <;> cases hw : s.wallet <;>
    simp [ensureProfileAndWallet, ensureProfile, ensureWallet, hp, hw]

theorem ensure_store_profile (u un n : String) (s : UserStore) :
    (ensureProfileAndWallet u un n s).store.profile =
      some (ensureProfileAndWallet u un n s).profile := by
  cases hp : s.profile <;> cases hw : s.wallet <;>
    simp [ensureProfileAndWallet, ensureProfile, ensureWallet, hp, hw]

theorem ensure_store_wallet (u un n : String) (s : UserStore) :
    (ensureProfileAndWallet u un n s).store.wallet =
      some (ensureProfileAndWallet u un n s).wallet := by
  cases hp : s.profile <;> cases hw : s.wallet <;>
    simp [ensureProfileAndWallet, ensureProfile, ensureWallet, hp, hw]

theorem ensure_writes_not_inventory (u un n : String) (s : UserStore) :
    ∀ r ∈ (ensureProfileAndWallet u un n s).writes, r.collection ≠ CollectionInventory := by
  cases hp : s.profile <;> cases hw : s.wallet <;>
    simp [ensureProfileAndWallet, ensureProfile, ensureWallet, hp, hw, writeReq,
      CollectionProfile, CollectionWallet, CollectionInventory]

theorem ensure_wallet_frame {s : UserStore} {w : Wallet} (u un n : String)
    (hw : s.wallet = some w) :
    (ensureProfileAndWallet u un n s).wallet = w ∧
    (ensureProfileAndWallet u un n s).store.wallet = some w ∧
    ∀ r ∈ (ensureProfileAndWallet u un n s).writes, r.collection ≠ CollectionWallet := by
  cases hp : s.profile <;>
    simp [ensureProfileAndWallet, ensureProfile, ensureWallet, hp, hw, writeReq,
      CollectionProfile, CollectionWallet]

/-! ## Stats aggregation: spec-side totals and the graph lemmas -/

/-- Spec side: the summed deltas an item's bonus entries contribute at one
stat key. -/
def bonusTotal (bonuses : List (String × Int)) (k : String) : Int :=
  ((bonuses.filter (fun p => p.1 = k)).map Prod.snd).sum

/-- Spec side: the contribution of one equipment-slot value at one stat key
(empty slot or a dangling item reference contributes nothing). -/
def slotContribution (items : List (String × ItemInstance)) (itemId k : String) : Int :=
  if itemId = "" then 0
  else match GoMap.find items itemId with
  | none => 0
  | some item => bonusTotal item.bonuses k

/-- Spec side: the total equipped bonus at one stat key, over all equipment
slots. -/
def equipTotal (items : List (String × ItemInstance)) (equip : List (String × String))
    (k : String) : Int :=
  (equip.map (fun p => slotContribution items p.2 k)).sum

theorem bonusTotal_cons (k : String) (v : Int) (rest : List (String × Int)) (j : String) :
    bonusTotal ((k, v) :: rest) j = (if k = j then v else 0) + bonusTotal rest j := by
  by_cases h : k = j <;> simp [bonusTotal, h]

theorem equipTotal_cons (items : List (String × ItemInstance)) (sl itemId : String)
    (rest : List (String × String)) (j : String) :
    equipTotal items ((sl, itemId) :: rest) j =
      slotContribution items itemId j + equipTotal items rest j := by
  simp [equipTotal]

theorem allowedStats_nodup : AllowedStats.Nodup := by decide

/-- `final[k] += v` on a map whose entries are the graph of `g` over a
duplicate-free key list updates exactly the entry of `k`. -/
theorem addTo_graph (L : List String) (g : String → Int) {k : String} (v : Int)
    (hnd : L.Nodup) (hk : k ∈ L) :
    GoMap.addTo (L.map fun j => (j, g j)) k v =
      L.map (fun j => (j, if j = k then g j + v else g j)) := by
  induction L with
  | nil => cases hk
  | cons a L ih =>
    simp only [List.nodup_cons] at hnd
    by_cases ha : a = k
    · subst ha
      have htail : List.map (fun j => (j, if j = a then g j + v else g j)) L =
          List.map (fun j => (j, g j)) L := by
        refine List.map_congr_left ?_
        intro j hj
        have : ¬j = a := fun hc => hnd.1 (hc ▸ hj)
        simp [this]
      simp [GoMap.addTo, htail]
    · have hk' : k ∈ L := by
        rcases List.mem_cons.mp hk with h1 | h1
        · exact absurd h1.symm ha
        · exact h1
      simp only [List.map_cons, GoMap.addTo, if_neg ha, ha, if_false]
      exact congrArg _ (ih hnd.2 hk')

/-- The inner bonus loop on a canonical-key graph adds each entry's
canonical-key delta pointwise. -/
theorem applyBonuses_graph (bonuses : List (String × Int)) (g : String → Int) :
    applyBonuses (AllowedStats.map fun j => (j, g j)) bonuses =
      AllowedStats.map fun j => (j, g j + bonusTotal bonuses j) := by
  induction bonuses generalizing g with
  | nil => simp [applyBonuses, bonusTotal]
  | cons p rest ih =>
    obtain ⟨k, v⟩ := p
    by_cases hk : isAllowedStat k = true
    · have hkmem : k ∈ AllowedStats := isAllowedStat_iff.mp hk
      rw [applyBonuses, if_pos hk, addTo_graph AllowedStats g v allowedStats_nodup hkmem,
        ih (fun j => if j = k then g j + v else g j)]
      refine List.map_congr_left ?_
      intro j hj
      by_cases hjk : j = k
      · subst hjk
        simp [bonusTotal_cons]
        ring
      · have : ¬k = j := fun hc => hjk hc.symm
        simp [hjk, bonusTotal_cons, this]
    · rw [applyBonuses, if_neg hk, ih g]
      refine List.map_congr_left ?_
      intro j hj
      have : ¬k = j := fun hc => hk (hc ▸ isAllowedStat_iff.mpr hj)
      simp [bonusTotal_cons, this]

/-- The outer equipment loop on a canonical-key graph adds each slot's
contribution pointwise. -/
theorem applyEquipment_graph (equip : List (String × String))
    (items : List (String × ItemInstance)) (g : String → Int) :
    applyEquipment items (AllowedStats.map fun j => (j, g j)) equip =
      AllowedStats.map fun j => (j, g j + equipTotal items equip j) := by
  induction equip generalizing g with
  | nil => simp [applyEquipment, equipTotal]
  | cons p rest ih =>
    obtain ⟨sl, itemId⟩ := p
    by_cases hid : itemId = ""
    · rw [applyEquipment, if_pos hid, ih g]
      refine List.map_congr_left ?_
      intro j hj
      simp [equipTotal_cons, slotContribution, hid]
    · cases hfind : GoMap.find items itemId with
      | none =>
        rw [applyEquipment, if_neg hid, hfind, ih g]
        refine List.map_congr_left ?_
        intro j hj
        simp [equipTotal_cons, slotContribution, hid, hfind]
      | some item =>
        simp only [applyEquipment, hid, if_false, hfind]
        rw [applyBonuses_graph item.bonuses g,
          ih (fun j => g j + bonusTotal item.bonuses j)]
        refine List.map_congr_left ?_
        intro j hj
        simp [equipTotal_cons, slotContribution, hid, hfind]
        ring

/-- The first loop of the aggregation builds exactly one entry per canonical
key, at the unit's base value (0 for an absent key). -/
theorem baseInit_eq (stats : List (String × Int)) :
    baseInit stats = AllowedStats.map fun k => (k, (GoMap.find stats k).getD 0) := by
  simp [baseInit, AllowedStats, GoMap.insert, List.foldl]

/-- The aggregation of `rpcComputeFinalStats`, closed form: one entry per
canonical stat key, base value plus the equipped bonus total. -/
theorem computeFinal_graph (items : List (String × ItemInstance)) (unit : UnitInstance) :
    computeFinal items unit =
      AllowedStats.map fun k =>
        (k, (GoMap.find unit.stats k).getD 0 + equipTotal items unit.equipment k) := by
  rw [computeFinal, baseInit_eq, applyEquipment_graph]

/-! ## Characterization of `validateUnitStats` -/

theorem validateUnitStats_ok_iff (stats : List (String × Int)) :
    validateUnitStats stats = .ok () ↔
      (stats.length = 7 ∧ (∀ p ∈ stats, isAllowedStat p.1 = true) ∧
       ∀ k ∈ AllowedStats, (GoMap.find stats k).isSome = true) := by
  constructor
  · intro h
    unfold validateUnitStats at h
    split at h
    · cases h
    · rename_i hlen
      have hlen7 : stats.length = 7 := not_not.mp hlen
      split at h
      · cases h
      · rename_i hbadnone
        split at h
        · cases h
        · rename_i hmissnone
          refine ⟨hlen7, ?_, ?_⟩
          · intro p hp
            have := List.find?_eq_none.mp hbadnone p hp
            simpa using this
          · intro k hk
            have := List.find?_eq_none.mp hmissnone k hk
            simpa [Option.isSome_iff_ne_none] using this
  · rintro ⟨hlen, hall, hcomp⟩
    have hbad : stats.find? (fun p => !isAllowedStat p.1) = none :=
      List.find?_eq_none.mpr (fun p hp => by simp [hall p hp])
    have hmiss : AllowedStats.find? (fun k => (GoMap.find stats k).isNone) = none := by
      refine List.find?_eq_none.mpr (fun k hk => ?_)
      have := hcomp k hk
      cases hfind : GoMap.find stats k with
      | none => rw [hfind] at this; cases this
      | some v => simp [hfind]
    unfold validateUnitStats
    rw [if_neg (by simp [hlen])]
    simp only [hbad, hmiss]

theorem keys_length (stats : List (String × Int)) :
    (GoMap.keys stats).length = stats.length := by
  simp [GoMap.keys]

/-- A stat map accepted by `validateUnitStats` has exactly the 7 canonical
keys (as a permutation of the canonical key list). -/
theorem validateUnitStats_keys_perm {stats : List (String × Int)}
    (h : validateUnitStats stats = .ok ()) : (GoMap.keys stats).Perm AllowedStats := by
  obtain ⟨hlen, hall, hcomp⟩ := (validateUnitStats_ok_iff stats).mp h
  have hsub : AllowedStats ⊆ GoMap.keys stats := by
    intro k hk
    have := hcomp k hk
    cases hfind : GoMap.find stats k with
    | none => rw [hfind] at this; cases this
    | some v => exact GoMap.mem_keys_of_find_some hfind
  have hsp : AllowedStats.Subperm (GoMap.keys stats) := allowedStats_nodup.subperm hsub
  have hle : (GoMap.keys stats).length ≤ AllowedStats.length := by
    rw [keys_length, hlen]
    decide
  exact (hsp.perm_of_length_le hle).symm

/-! ## The inventory invariants (spec §3) and reachable states -/

/-- A slot binding is sound w.r.t. an items map: empty, or referencing an
item present in the map whose `slot` field matches the slot name. -/
def slotRefOk (items : List (String × ItemInstance)) (p : String × String) : Bool :=
  p.2 = "" ||
    (match GoMap.find items p.2 with
     | none => false
     | some item => slotMatches p.1 item.slot)

theorem slotRefOk_iff (items : List (String × ItemInstance)) (p : String × String) :
    slotRefOk items p = true ↔
      (p.2 ≠ "" →
        ∃ item, GoMap.find items p.2 = some item ∧ slotMatches p.1 item.slot = true) := by
  by_cases he : p.2 = "" <;> cases hf : GoMap.find items p.2 <;> simp [slotRefOk, he, hf]

/-- The per-unit invariant: exactly the 7 canonical stat keys, exactly the 3
equipment slot keys, and every non-empty slot value references a present,
slot-matching item. -/
def UnitOk (items : List (String × ItemInstance)) (u : UnitInstance) : Prop :=
  (GoMap.keys u.stats).Perm AllowedStats ∧
  (GoMap.keys u.equipment).Perm EquipmentSlotKeys ∧
  ∀ p ∈ u.equipment, slotRefOk items p = true

/-- The whole-inventory invariant (including that the maps are real Go maps:
no duplicate keys). -/
def InvOk (inv : Inventory) : Prop :=
  (GoMap.keys inv.items).Nodup ∧ (GoMap.keys inv.units).Nodup ∧
  ∀ q ∈ inv.units, UnitOk inv.items q.2

/-- A persisted inventory record as every save in scope produces it: both
maps present and the invariant holding. -/
def StoredOk (si : StoredInventory) : Prop :=
  ∃ its us, si.items = some its ∧ si.units = some us ∧ InvOk ⟨its, us⟩

/-- Store-level invariant: the inventory record, when present, is sound. -/
def StoreOk (s : UserStore) : Prop := ∀ si, s.inventory = some si → StoredOk si

theorem equipmentSlotKeys_nodup : EquipmentSlotKeys.Nodup := by decide

theorem storeOk_of_inventory_eq {s s' : UserStore} (h : s'.inventory = s.inventory)
    (hs : StoreOk s) : StoreOk s' := fun si hsi => hs si (h ▸ hsi)

theorem invOk_repair {s : UserStore} (hs : StoreOk s) :
    InvOk (repairInventory s.inventory) := by
  cases hsi : s.inventory with
  | none => exact ⟨List.nodup_nil, List.nodup_nil, by simp [repairInventory]⟩
  | some si =>
    obtain ⟨its, us, h1, h2, h3⟩ := hs si hsi
    simpa [repairInventory, h1, h2] using h3

/-- A freshly created unit (validated stats, all slots empty) satisfies the
per-unit invariant against any items map. -/
theorem unitOk_new (items : List (String × ItemInstance)) (newId tpl rar : String)
    {stats : List (String × Int)} (h : validateUnitStats stats = .ok ()) :
    UnitOk items ⟨newId, tpl, rar, stats, [("weapon", ""), ("armor", ""), ("relic", "")]⟩ := by
  refine ⟨validateUnitStats_keys_perm h, ?_, ?_⟩
  · have : GoMap.keys [(("weapon" : String), ("" : String)), ("armor", ""), ("relic", "")] =
        EquipmentSlotKeys := rfl
    rw [this]
  · intro p hp
    simp only [List.mem_cons, List.not_mem_nil, or_false] at hp
    rcases hp with rfl | rfl | rfl <;> simp [slotRefOk]

/-- Inserting a fresh item does not invalidate an existing slot reference. -/
theorem slotRefOk_insert_fresh {items : List (String × ItemInstance)} {newId : String}
    {item : ItemInstance} (hfresh : GoMap.find items newId = none) {p : String × String}
    (h : slotRefOk items p = true) : slotRefOk (GoMap.insert items newId item) p = true := by
  by_cases he : p.2 = ""
  · simp [slotRefOk, he]
  · obtain ⟨it0, hf0, hm0⟩ := (slotRefOk_iff items p).mp h he
    have hne : p.2 ≠ newId := by
      intro hc
      rw [hc, hfresh] at hf0
      cases hf0
    refine (slotRefOk_iff _ p).mpr (fun _ => ⟨it0, ?_, hm0⟩)
    rw [GoMap.find_insert_ne _ _ hne]
    exact hf0

/-- Inserting a fresh, invariant-satisfying unit preserves the inventory
invariant. -/
theorem invOk_insert_unit {inv : Inventory} (hinv : InvOk inv) {newId : String}
    {u : UnitInstance} (hu : UnitOk inv.items u) :
    InvOk { inv with units := GoMap.insert inv.units newId u } := by
  obtain ⟨hitems, hunits, hall⟩ := hinv
  refine ⟨hitems, GoMap.keys_insert_nodup newId u hunits, ?_⟩
  intro q hq
  rcases GoMap.mem_insert hunits hq with rfl | ⟨hqm, -⟩
  · exact hu
  · exact hall q hqm

/-- Inserting a fresh item preserves the inventory invariant. -/
theorem invOk_insert_item {inv : Inventory} (hinv : InvOk inv) {newId : String}
    {item : ItemInstance} (hfresh : GoMap.find inv.items newId = none) :
    InvOk { inv with items := GoMap.insert inv.items newId item } := by
  obtain ⟨hitems, hunits, hall⟩ := hinv
  refine ⟨GoMap.keys_insert_nodup newId item hitems, hunits, ?_⟩
  intro q hq
  obtain ⟨hst, heq, hsl⟩ := hall q hq
  exact ⟨hst, heq, fun p hp => slotRefOk_insert_fresh hfresh (hsl p hp)⟩

/-- Re-pointing one equipment slot of an invariant-satisfying unit to a
verified value (empty, or a present slot-matching item) preserves the
per-unit invariant. -/
theorem unitOk_set_slot {items : List (String × ItemInstance)} {u : UnitInstance}
    (hu : UnitOk items u) {slotName v : String} (hslot : slotName ∈ EquipmentSlotKeys)
    (hv : v = "" ∨ ∃ item, GoMap.find items v = some item ∧
      slotMatches slotName item.slot = true) :
    UnitOk items { u with equipment := GoMap.insert u.equipment slotName v } := by
  obtain ⟨hst, heq, hsl⟩ := hu
  have hmem : slotName ∈ GoMap.keys u.equipment := heq.mem_iff.mpr hslot
  have hnd : (GoMap.keys u.equipment).Nodup := heq.nodup_iff.mpr equipmentSlotKeys_nodup
  refine ⟨hst, ?_, ?_⟩
  · rw [GoMap.keys_insert_of_mem v hmem]
    exact heq
  · intro p hp
    rcases GoMap.mem_insert hnd hp with rfl | ⟨hpm, -⟩
    · rcases hv with rfl | ⟨item, hf, hm⟩
      · simp [slotRefOk]
      · exact (slotRefOk_iff _ _).mpr (fun _ => ⟨item, hf, hm⟩)
    · exact hsl p hpm

/-- The states of one user's records reachable through the module's
operations, starting from a fresh user (no records).  Instance ids handed to
`rpc_grant_item` carry the allocator's guarantee (spec §4.3) that they do not
collide with an existing item id. -/
inductive Reachable : UserStore → Prop
  | init : Reachable emptyStore
  | getState (uid username now : String) {s : UserStore} (h : Reachable s) :
      Reachable (rpcGetState uid username now s).store
  | createUnit (uid : String) (payload : Payload CreateUnitPayload) (newId now : String)
      {s : UserStore} (h : Reachable s) :
      Reachable (rpcCreateUnit uid payload newId now s).store
  | grantItem (uid : String) (env : Option (List (String × String)))
      (payload : Payload GrantItemPayload) (newId now : String) {s : UserStore}
      (h : Reachable s)
      (hfresh : GoMap.find (repairInventory s.inventory).items newId = none) :
      Reachable (rpcGrantItem uid env payload newId now s).store
  | equipItem (uid : String) (payload : Payload EquipItemPayload) (now : String)
      {s : UserStore} (h : Reachable s) :
      Reachable (rpcEquipItem uid payload now s).store
  | computeStats (uid : String) (payload : Payload ComputeFinalStatsPayload) (now : String)
      {s : UserStore} (h : Reachable s) :
      Reachable (rpcComputeFinalStats uid payload now s).store

theorem storeOk_getState (uid username now : String) {s : UserStore} (hs : StoreOk s) :
    StoreOk (rpcGetState uid username now s).store := by
  simp only [rpcGetState]
  split
  · exact hs
  · exact storeOk_of_inventory_eq (ensure_store_inventory _ _ _ _) hs

theorem storeOk_computeStats (uid : String) (payload : Payload ComputeFinalStatsPayload)
    (now : String) {s : UserStore} (hs : StoreOk s) :
    StoreOk (rpcComputeFinalStats uid payload now s).store := by
  simp only [rpcComputeFinalStats]
  repeat' split
  all_goals
    first
    | exact hs
    | exact storeOk_of_inventory_eq (ensure_store_inventory _ _ _ _) hs

theorem storeOk_createUnit (uid : String) (payload : Payload CreateUnitPayload)
    (newId now : String) {s : UserStore} (hs : StoreOk s) :
    StoreOk (rpcCreateUnit uid payload newId now s).store := by
  simp only [rpcCreateUnit]
  split
  · exact hs
  split
  · exact hs
  · exact hs
  rename_i inp
  split
  · exact hs
  split
  · exact hs
  split
  · exact hs
  rename_i hval
  intro si hsi
  have hsi' := Option.some.inj hsi
  subst hsi'
  rw [ensure_inv uid "" now s]
  exact ⟨_, _, rfl, rfl, invOk_insert_unit (invOk_repair hs) (unitOk_new _ _ _ _ hval)⟩

theorem storeOk_grantItem (uid : String) (env : Option (List (String × String)))
    (payload : Payload GrantItemPayload) (newId now : String) {s : UserStore}
    (hs : StoreOk s)
    (hfresh : GoMap.find (repairInventory s.inventory).items newId = none) :
    StoreOk (rpcGrantItem uid env payload newId now s).store := by
  simp only [rpcGrantItem]
  split
  · exact hs
  · exact hs
  rename_i inp
  split
  · exact hs
  split
  · exact hs
  split
  · exact hs
  split
  · exact hs
  intro si hsi
  have hsi' := Option.some.inj hsi
  subst hsi'
  rw [ensure_inv]
  exact ⟨_, _, rfl, rfl, invOk_insert_item (invOk_repair hs) hfresh⟩

theorem storeOk_equipItem (uid : String) (payload : Payload EquipItemPayload) (now : String)
    {s : UserStore} (hs : StoreOk s) : StoreOk (rpcEquipItem uid payload now s).store := by
  simp only [rpcEquipItem]
  split
  · exact hs
  split
  · exact hs
  · exact hs
  rename_i inp
  split
  · exact hs
  split
  · exact hs
  rename_i hslot
  split
  · exact storeOk_of_inventory_eq (ensure_store_inventory _ _ _ _) hs
  rename_i unit hunit
  split
  · exact storeOk_of_inventory_eq (ensure_store_inventory _ _ _ _) hs
  rename_i v heq
  -- hslot : the slot name passed the enum check; heq : the checked new value
  intro si hsi
  have hsi' := Option.some.inj hsi
  subst hsi'
  rw [ensure_inv uid "" now s] at hunit heq ⊢
  have hinv : InvOk (repairInventory s.inventory) := invOk_repair hs
  have hslot' : inp.slotName ∈ EquipmentSlotKeys := by
    refine isAllowedEquipmentSlotName_iff.mp ?_
    by_contra hc
    simp only [Bool.not_eq_true] at hc
    exact hslot (by simp [hc])
  have huOk : UnitOk (repairInventory s.inventory).items unit :=
    hinv.2.2 _ (GoMap.find_some_mem hunit)
  have hv : v = "" ∨ ∃ item, GoMap.find (repairInventory s.inventory).items v = some item ∧
      slotMatches inp.slotName item.slot = true := by
    split at heq
    · exact Or.inl (Except.ok.inj heq).symm
    · split at heq
      · cases heq
      · rename_i item hfind
        split at heq
        · cases heq
        · rename_i hmatch
          refine Or.inr ⟨item, ?_, ?_⟩
          · rw [(Except.ok.inj heq)] at hfind
            exact hfind
          · simpa using hmatch
  refine ⟨_, _, rfl, rfl, ?_⟩
  exact invOk_insert_unit hinv (unitOk_set_slot huOk hslot' hv)

/-- Every reachable state satisfies the store invariant. -/
theorem reachable_storeOk {s : UserStore} (h : Reachable s) : StoreOk s := by
  induction h with
  | init => intro si hsi; cases hsi
  | getState uid username now h ih => exact storeOk_getState uid username now ih
  | createUnit uid payload newId now h ih => exact storeOk_createUnit uid payload newId now ih
  | grantItem uid env payload newId now h hfresh ih =>
    exact storeOk_grantItem uid env payload newId now ih hfresh
  | equipItem uid payload now h ih => exact storeOk_equipItem uid payload now ih
  | computeStats uid payload now h ih => exact storeOk_computeStats uid payload now ih

/-! ## Write discipline -/

def isInventoryWrite (r : StorageWriteReq) : Bool := r.collection = CollectionInventory

theorem filter_inv_nil {l : List StorageWriteReq}
    (h : ∀ r ∈ l, r.collection ≠ CollectionInventory) :
    l.filter isInventoryWrite = [] := by
  induction l with
  | nil => rfl
  | cons a l ih =>
    have ha := h a (List.mem_cons_self a l)
    simp only [List.filter_cons, isInventoryWrite, ha, decide_False, if_false]
    exact ih (fun r hr => h r (List.mem_cons_of_mem _ hr))

theorem createUnit_err_writes (uid : String) (payload : Payload CreateUnitPayload)
    (newId now : String) (s : UserStore)
    (h : resultIsError (rpcCreateUnit uid payload newId now s).res = true) :
    (rpcCreateUnit uid payload newId now s).writes = [] := by
  revert h
  simp only [rpcCreateUnit]
  repeat' split
  all_goals simp [resultIsError]

theorem grantItem_err_writes (uid : String) (env : Option (List (String × String)))
    (payload : Payload GrantItemPayload) (newId now : String) (s : UserStore)
    (h : resultIsError (rpcGrantItem uid env payload newId now s).res = true) :
    (rpcGrantItem uid env payload newId now s).writes = [] := by
  revert h
  simp only [rpcGrantItem]
  repeat' split
  all_goals simp [resultIsError]

theorem equipItem_err_writes (uid : String) (payload : Payload EquipItemPayload)
    (now : String) (s : UserStore)
    (h : resultIsError (rpcEquipItem uid payload now s).res = true) :
    ∀ r ∈ (rpcEquipItem uid payload now s).writes, r.collection ≠ CollectionInventory := by
  revert h
  simp only [rpcEquipItem]
  repeat' split
  all_goals
    first
    | (simp [resultIsError]; done)
    | (intro _ r hr; exact ensure_writes_not_inventory _ _ _ _ r hr)

theorem computeStats_no_inv_write (uid : String) (payload : Payload ComputeFinalStatsPayload)
    (now : String) (s : UserStore) :
    ∀ r ∈ (rpcComputeFinalStats uid payload now s).writes,
      r.collection ≠ CollectionInventory := by
  simp only [rpcComputeFinalStats]
  repeat' split
  all_goals
    first
    | (simp; done)
    | (intro r hr; exact ensure_writes_not_inventory _ _ _ _ r hr)

theorem getState_no_inv_write (uid username now : String) (s : UserStore) :
    ∀ r ∈ (rpcGetState uid username now s).writes, r.collection ≠ CollectionInventory := by
  simp only [rpcGetState]
  split
  · simp
  · intro r hr
    exact ensure_writes_not_inventory _ _ _ _ r hr

theorem writeReq_inventory_filter (u v : String) (val : StorageValue)
    (l : List StorageWriteReq) (h : ∀ r ∈ l, r.collection ≠ CollectionInventory) :
    ((l ++ [writeReq u CollectionInventory v val]).filter isInventoryWrite).length = 1 := by
  rw [List.filter_append, filter_inv_nil h]
  simp [isInventoryWrite, writeReq]

theorem createUnit_one_inv_write (uid : String) (payload : Payload CreateUnitPayload)
    (newId now : String) (s : UserStore) :
    ((rpcCreateUnit uid payload newId now s).writes.filter isInventoryWrite).length ≤ 1 := by
  simp only [rpcCreateUnit]
  repeat' split
  all_goals
    first
    | (simp; done)
    | (rw [writeReq_inventory_filter _ _ _ _ (ensure_writes_not_inventory _ _ _ _)])

theorem grantItem_one_inv_write (uid : String) (env : Option (List (String × String)))
    (payload : Payload GrantItemPayload) (newId now : String) (s : UserStore) :
    ((rpcGrantItem uid env payload newId now s).writes.filter isInventoryWrite).length ≤ 1 := by
  simp only [rpcGrantItem]
  repeat' split
  all_goals
    first
    | (simp; done)
    | (rw [writeReq_inventory_filter _ _ _ _ (ensure_writes_not_inventory _ _ _ _)])

theorem equipItem_one_inv_write (uid : String) (payload : Payload EquipItemPayload)
    (now : String) (s : UserStore) :
    ((rpcEquipItem uid payload now s).writes.filter isInventoryWrite).length ≤ 1 := by
  simp only [rpcEquipItem]
  repeat' split
  all_goals
    first
    | (simp; done)
    | (rw [filter_inv_nil (ensure_writes_not_inventory _ _ _ _)]; simp)
    | (rw [writeReq_inventory_filter _ _ _ _ (ensure_writes_not_inventory _ _ _ _)])

/-- The checks of `rpcEquipItem` that precede the bootstrap call —
authentication, payload presence/parse, non-empty ids, slot-name enum
membership — fail with an empty write log and an untouched store. -/
theorem equipItem_early_no_writes (uid now : String) (payload : Payload EquipItemPayload)
    (s : UserStore) (inp : EquipItemPayload)
    (h : uid = "" ∨ payload = .missing ∨ payload = .invalid ∨
      (payload = .ok inp ∧ (inp.unitInstanceId = "" ∨ inp.slotName = "" ∨
        isAllowedEquipmentSlotName inp.slotName = false))) :
    (rpcEquipItem uid payload now s).writes = [] ∧
    (rpcEquipItem uid payload now s).store = s := by
  rcases h with h | h | h | ⟨h, hc⟩
  · simp [rpcEquipItem, h]
  · subst h
    unfold rpcEquipItem
    split <;> exact ⟨rfl, rfl⟩
  · subst h
    unfold rpcEquipItem
    split <;> exact ⟨rfl, rfl⟩
  · subst h
    unfold rpcEquipItem
    split
    · exact ⟨rfl, rfl⟩
    · rcases hc with hc | hc | hc
      · simp [hc]
      · simp [hc]
      · by_cases h1 : inp.unitInstanceId = "" ∨ inp.slotName = ""
        · simp [h1]
        · simp [h1, hc]

/-- The checks of `rpcComputeFinalStats` that precede the bootstrap call —
authentication, payload presence/parse, non-empty unit id — fail with an
empty write log and an untouched store. -/
theorem computeStats_early_no_writes (uid now : String)
    (payload : Payload ComputeFinalStatsPayload) (s : UserStore)
    (inp : ComputeFinalStatsPayload)
    (h : uid = "" ∨ payload = .missing ∨ payload = .invalid ∨
      (payload = .ok inp ∧ inp.unitInstanceId = "")) :
    (rpcComputeFinalStats uid payload now s).writes = [] ∧
    (rpcComputeFinalStats uid payload now s).store = s := by
  rcases h with h | h | h | ⟨h, hc⟩
  · simp [rpcComputeFinalStats, h]
  · subst h
    unfold rpcComputeFinalStats
    split <;> exact ⟨rfl, rfl⟩
  · subst h
    unfold rpcComputeFinalStats
    split <;> exact ⟨rfl, rfl⟩
  · subst h
    unfold rpcComputeFinalStats
    split
    · exact ⟨rfl, rfl⟩
    · simp [hc]

/-! ## Wallet frame -/

theorem wallet_writes_append {l : List StorageWriteReq} (u v : String) (val : StorageValue)
    (h : ∀ r ∈ l, r.collection ≠ CollectionWallet) :
    ∀ r ∈ l ++ [writeReq u CollectionInventory v val], r.collection ≠ CollectionWallet := by
  intro r hr
  rcases List.mem_append.mp hr with h1 | h1
  · exact h r h1
  · rw [List.mem_singleton.mp h1]
    exact (by decide : CollectionInventory ≠ CollectionWallet)

theorem wallet_getState (uid username now : String) {s : UserStore} {w : Wallet}
    (hw : s.wallet = some w) :
    (rpcGetState uid username now s).store.wallet = some w ∧
    ∀ r ∈ (rpcGetState uid username now s).writes, r.collection ≠ CollectionWallet := by
  simp only [rpcGetState]
  split
  · exact ⟨hw, by simp⟩
  · obtain ⟨-, h2, h3⟩ := ensure_wallet_frame uid username now hw
    exact ⟨h2, h3⟩

theorem wallet_createUnit (uid : String) (payload : Payload CreateUnitPayload)
    (newId now : String) {s : UserStore} {w : Wallet} (hw : s.wallet = some w) :
    (rpcCreateUnit uid payload newId now s).store.wallet = some w ∧
    ∀ r ∈ (rpcCreateUnit uid payload newId now s).writes, r.collection ≠ CollectionWallet := by
  simp only [rpcCreateUnit]
  repeat' split
  all_goals
    first
    | exact ⟨hw, by simp⟩
    | (obtain ⟨-, h2, h3⟩ := ensure_wallet_frame uid "" now hw
       exact ⟨h2, wallet_writes_append _ _ _ h3⟩)

theorem wallet_grantItem (uid : String) (env : Option (List (String × String)))
    (payload : Payload GrantItemPayload) (newId now : String) {s : UserStore} {w : Wallet}
    (hw : s.wallet = some w) :
    (rpcGrantItem uid env payload newId now s).store.wallet = some w ∧
    ∀ r ∈ (rpcGrantItem uid env payload newId now s).writes, r.collection ≠ CollectionWallet := by
  simp only [rpcGrantItem]
  repeat' split
  all_goals
    first
    | exact ⟨hw, by simp⟩
    | (obtain ⟨-, h2, h3⟩ := ensure_wallet_frame _ "" now hw
       exact ⟨h2, wallet_writes_append _ _ _ h3⟩)

theorem wallet_equipItem (uid : String) (payload : Payload EquipItemPayload)
    (now : String) {s : UserStore} {w : Wallet} (hw : s.wallet = some w) :
    (rpcEquipItem uid payload now s).store.wallet = some w ∧
    ∀ r ∈ (rpcEquipItem uid payload now s).writes, r.collection ≠ CollectionWallet := by
  simp only [rpcEquipItem]
  repeat' split
  all_goals
    first
    | exact ⟨hw, by simp⟩
    | (obtain ⟨-, h2, h3⟩ := ensure_wallet_frame uid "" now hw
       exact ⟨h2, h3⟩)
    | (obtain ⟨-, h2, h3⟩ := ensure_wallet_frame uid "" now hw
       exact ⟨h2, wallet_writes_append _ _ _ h3⟩)

theorem wallet_computeStats (uid : String) (payload : Payload ComputeFinalStatsPayload)
    (now : String) {s : UserStore} {w : Wallet} (hw : s.wallet = some w) :
    (rpcComputeFinalStats uid payload now s).store.wallet = some w ∧
    ∀ r ∈ (rpcComputeFinalStats uid payload now s).writes, r.collection ≠ CollectionWallet := by
  simp only [rpcComputeFinalStats]
  repeat' split
  all_goals
    first
    | exact ⟨hw, by simp⟩
    | (obtain ⟨-, h2, h3⟩ := ensure_wallet_frame uid "" now hw
       exact ⟨h2, h3⟩)


/-! ## Sample data for witnesses -/

def sampleStats : List (String × Int) :=
  [("hp_max", 10), ("stamina_max", 11), ("mana_max", 12), ("melee", 13),
   ("ranged", 14), ("magic", 15), ("maneuver", 16)]

def sampleWeapon : ItemInstance :=
  ⟨"i1", "tpl-sword", "Rare", "Weapon", [("melee", 3)], "", "t0"⟩

def sampleArmor : ItemInstance :=
  ⟨"i2", "tpl-plate", "Epic", "Armor", [("hp_max", 5), ("melee", 2)], "", "t0"⟩

def sampleUnit : UnitInstance :=
  ⟨"u1", "tpl-knight", "Epic", sampleStats, [("weapon", "i1"), ("armor", ""), ("relic", "")]⟩

def sampleItems : List (String × ItemInstance) := [("i1", sampleWeapon), ("i2", sampleArmor)]

def sampleStore : UserStore :=
  ⟨some ⟨"alice", "t0"⟩, some ⟨0⟩, some ⟨some sampleItems, some [("u1", sampleUnit)]⟩⟩

/-! ## The claims -/

/-- C1: for an authenticated caller and a stored inventory containing the
requested unit, `rpc_compute_final_stats` returns `finalStats` with exactly
one entry per canonical stat key, equal to the unit's base value at that key
plus, summed over the unit's equipment slots holding a non-empty item
reference that exists in the items map, that item's bonus entries restricted
to the canonical keys (`equipTotal`; a slot whose referenced item id is
absent contributes nothing instead of failing); the store is left exactly as
it was and no storage write is issued. -/
theorem computeFinalStats_correct (uid unitId now : String) (p : Profile) (w : Wallet)
    (its : List (String × ItemInstance)) (us : List (String × UnitInstance))
    (unit : UnitInstance) (s : UserStore)
    (hu : uid ≠ "") (hid : unitId ≠ "")
    (hp : s.profile = some p) (hw : s.wallet = some w)
    (hsi : s.inventory = some ⟨some its, some us⟩)
    (hunit : GoMap.find us unitId = some unit) :
    rpcComputeFinalStats uid (.ok ⟨unitId⟩) now s =
      ⟨.ok ⟨unitId, unit.stats,
        AllowedStats.map fun k =>
          (k, (GoMap.find unit.stats k).getD 0 + equipTotal its unit.equipment k)⟩,
       s, []⟩ := by
  have hfull := ensure_full uid "" now hp hw
  simp [rpcComputeFinalStats, hu, hid, hfull, repairInventory, hsi, hunit,
    computeFinal_graph]

/-- C2: every state reachable by the module's operations from a fresh user
satisfies the schema invariants: the inventory record (when present) has both
maps, every unit's stats map has exactly the 7 canonical keys, every unit's
equipment map has exactly the 3 slot keys, and every non-empty slot value
references an item present in the items map whose `slot` field matches the
slot name under the weapon/armor/relic mapping (since no operation ever
removes an item, present-now renders "existed when the slot was written"). -/
theorem reachable_invariants {s : UserStore} (h : Reachable s) :
    ∀ si, s.inventory = some si →
      ∃ its us, si.items = some its ∧ si.units = some us ∧
        ∀ q ∈ us,
          (GoMap.keys q.2.stats).Perm AllowedStats ∧
          (GoMap.keys q.2.equipment).Perm EquipmentSlotKeys ∧
          ∀ p ∈ q.2.equipment, p.2 ≠ "" →
            ∃ item, GoMap.find its p.2 = some item ∧
              slotMatches p.1 item.slot = true := by
  intro si hsi
  obtain ⟨its, us, h1, h2, h3⟩ := reachable_storeOk h si hsi
  refine ⟨its, us, h1, h2, ?_⟩
  intro q hq
  obtain ⟨hst, heq, hsl⟩ := h3.2.2 q hq
  exact ⟨hst, heq, fun p hp => (slotRefOk_iff its p).mp (hsl p hp)⟩

/-- C3 counterexample: on a fresh user, an equip request naming a unit that
does not exist fails its unit-existence precondition, yet the failure comes
only after two persistence calls (the bootstrap creation of the profile and
wallet records) — refuting "returns the failure before making any
persistence call" for the claim's full precondition list. -/
theorem equip_fails_after_persistence :
    resultIsError (rpcEquipItem "u1" (.ok ⟨"u9", "weapon", none⟩) "t0" emptyStore).res = true ∧
    (rpcEquipItem "u1" (.ok ⟨"u9", "weapon", none⟩) "t0" emptyStore).writes ≠ [] := by
  decide

/-- C3 (amended): create-unit and grant-item perform no write at all when
they fail; equip and compute-final-stats check authentication, payload
well-formedness and slot-name/id validity before any persistence — those
early failures leave an empty write log and an untouched store — while
their unit/item-existence and slot-match failures can follow the bootstrap
creation of missing profile/wallet records but still never include an
inventory write; compute-final-stats and get-state never write the
inventory at all; and every operation issues at most one inventory write,
so no partial inventory write occurs. -/
theorem write_discipline (uid username newId now : String)
    (env : Option (List (String × String)))
    (pC : Payload CreateUnitPayload) (pG : Payload GrantItemPayload)
    (pE : Payload EquipItemPayload) (pF : Payload ComputeFinalStatsPayload)
    (s : UserStore) :
    (resultIsError (rpcCreateUnit uid pC newId now s).res = true →
      (rpcCreateUnit uid pC newId now s).writes = []) ∧
    (resultIsError (rpcGrantItem uid env pG newId now s).res = true →
      (rpcGrantItem uid env pG newId now s).writes = []) ∧
    (resultIsError (rpcEquipItem uid pE now s).res = true →
      ∀ r ∈ (rpcEquipItem uid pE now s).writes, r.collection ≠ CollectionInventory) ∧
    (∀ inp : EquipItemPayload,
      uid = "" ∨ pE = .missing ∨ pE = .invalid ∨
        (pE = .ok inp ∧ (inp.unitInstanceId = "" ∨ inp.slotName = "" ∨
          isAllowedEquipmentSlotName inp.slotName = false)) →
      (rpcEquipItem uid pE now s).writes = [] ∧ (rpcEquipItem uid pE now s).store = s) ∧
    (∀ inp : ComputeFinalStatsPayload,
      uid = "" ∨ pF = .missing ∨ pF = .invalid ∨
        (pF = .ok inp ∧ inp.unitInstanceId = "") →
      (rpcComputeFinalStats uid pF now s).writes = [] ∧
      (rpcComputeFinalStats uid pF now s).store = s) ∧
    (∀ r ∈ (rpcComputeFinalStats uid pF now s).writes, r.collection ≠ CollectionInventory) ∧
    (∀ r ∈ (rpcGetState uid username now s).writes, r.collection ≠ CollectionInventory) ∧
    ((rpcCreateUnit uid pC newId now s).writes.filter isInventoryWrite).length ≤ 1 ∧
    ((rpcGrantItem uid env pG newId now s).writes.filter isInventoryWrite).length ≤ 1 ∧
    ((rpcEquipItem uid pE now s).writes.filter isInventoryWrite).length ≤ 1 :=
  ⟨createUnit_err_writes uid pC newId now s,
   grantItem_err_writes uid env pG newId now s,
   equipItem_err_writes uid pE now s,
   fun inp h => equipItem_early_no_writes uid now pE s inp h,
   fun inp h => computeStats_early_no_writes uid now pF s inp h,
   computeStats_no_inv_write uid pF now s,
   getState_no_inv_write uid username now s,
   createUnit_one_inv_write uid pC newId now s,
   grantItem_one_inv_write uid env pG newId now s,
   equipItem_one_inv_write uid pE now s⟩

/-- C4: contrary to the claim, every write request the module issues carries
the version token "*" in its expected-version field (not the empty token
that means an unconditional overwrite), and under the platform's documented
token semantics such a write against a record that already exists (current
version `some cur`) is rejected instead of succeeding and replacing it. -/
theorem writeReq_version_conditional (u c k cur : String) (val : StorageValue) :
    (writeReq u c k val).version = "*" ∧
    platformAccepts (some cur) (writeReq u c k val) = false := by
  constructor
  · rfl
  · simp [platformAccepts, writeReq]

/-- C5: `validateUnitStats` succeeds iff the map has exactly 7 entries, every
key is canonical, and every canonical key is present; the size check comes
first, then per-key membership, then completeness, and each failure's error
names the offending or missing key. -/
theorem validateUnitStats_spec (stats : List (String × Int)) :
    (validateUnitStats stats = .ok () ↔
      (stats.length = 7 ∧ (∀ p ∈ stats, isAllowedStat p.1 = true) ∧
       ∀ k ∈ AllowedStats, (GoMap.find stats k).isSome = true)) ∧
    (stats.length ≠ 7 →
      validateUnitStats stats = .error "stats must contain exactly the 7 allowed keys") ∧
    (stats.length = 7 → ∀ p ∈ stats, isAllowedStat p.1 = false →
      ∃ k, k ∈ GoMap.keys stats ∧ isAllowedStat k = false ∧
        validateUnitStats stats = .error ("invalid stat key: " ++ k)) ∧
    (stats.length = 7 → (∀ p ∈ stats, isAllowedStat p.1 = true) →
      ∀ k0 ∈ AllowedStats, GoMap.find stats k0 = none →
      ∃ k, k ∈ AllowedStats ∧ GoMap.find stats k = none ∧
        validateUnitStats stats = .error ("missing required stat: " ++ k)) := by
  refine ⟨validateUnitStats_ok_iff stats, ?_, ?_, ?_⟩
  · intro hlen
    unfold validateUnitStats
    rw [if_pos hlen]
  · intro hlen p hp hbad
    have hsome : (stats.find? (fun q => !isAllowedStat q.1)).isSome := by
      rw [List.find?_isSome]
      exact ⟨p, hp, by simp [hbad]⟩
    cases hf : stats.find? (fun q => !isAllowedStat q.1) with
    | none => rw [hf] at hsome; cases hsome
    | some q =>
      have hqbad : isAllowedStat q.1 = false := by
        have := List.find?_some hf
        simpa using this
      have hqmem : q.1 ∈ GoMap.keys stats :=
        List.mem_map_of_mem Prod.fst (List.mem_of_find?_eq_some hf)
      refine ⟨q.1, hqmem, hqbad, ?_⟩
      unfold validateUnitStats
      rw [if_neg (by simp [hlen]), hf]
  · intro hlen hall k0 hk0 hfind0
    have hbadnone : stats.find? (fun q => !isAllowedStat q.1) = none :=
      List.find?_eq_none.mpr (fun p hp => by simp [hall p hp])
    have hsome : (AllowedStats.find? (fun k => (GoMap.find stats k).isNone)).isSome := by
      rw [List.find?_isSome]
      exact ⟨k0, hk0, by simp [hfind0]⟩
    cases hf : AllowedStats.find? (fun k => (GoMap.find stats k).isNone) with
    | none => rw [hf] at hsome; cases hsome
    | some k =>
      have hknone : GoMap.find stats k = none := by
        have := List.find?_some hf
        simpa [Option.isNone_iff_eq_none] using this
      refine ⟨k, List.mem_of_find?_eq_some hf, hknone, ?_⟩
      unfold validateUnitStats
      rw [if_neg (by simp [hlen]), hbadnone, hf]


/-- C6: a create-unit request with a non-empty templateId, a valid rarity,
and a stats map passing validation returns a unit whose stats map is exactly
the submitted one (hence has exactly the 7 canonical keys with the submitted
values) and whose equipment map has exactly the 3 slot keys weapon, armor,
relic, each mapped to the empty string. -/
theorem createUnit_valid (uid newId now : String) (inp : CreateUnitPayload) (s : UserStore)
    (hu : uid ≠ "") (ht : inp.templateId ≠ "") (hr : isAllowedRarity inp.rarity = true)
    (hv : validateUnitStats inp.stats = .ok ()) :
    ∃ u : UnitInstance,
      (rpcCreateUnit uid (.ok inp) newId now s).res = .ok u ∧
      u.stats = inp.stats ∧ (GoMap.keys u.stats).Perm AllowedStats ∧
      u.equipment = [("weapon", ""), ("armor", ""), ("relic", "")] := by
  refine ⟨⟨newId, inp.templateId, inp.rarity, inp.stats,
    [("weapon", ""), ("armor", ""), ("relic", "")]⟩, ?_, rfl,
    validateUnitStats_keys_perm hv, rfl⟩
  simp [rpcCreateUnit, hu, ht, hr, hv]

/-- C7: an equip request naming an existing unit, a valid slot name, and an
existing item whose `slot` field does not match the requested slot name
fails with InvalidArgument (`item_slot_mismatch`), leaves the persisted
inventory record (and with it the unit's equipment map) unchanged, and
issues no inventory write. -/
theorem equip_slot_mismatch (uid now : String) (inp : EquipItemPayload) (s : UserStore)
    (its : List (String × ItemInstance)) (us : List (String × UnitInstance))
    (unit : UnitInstance) (item : ItemInstance) (iid : String)
    (hu : uid ≠ "") (hid : inp.unitInstanceId ≠ "")
    (hslot : isAllowedEquipmentSlotName inp.slotName = true)
    (hsi : s.inventory = some ⟨some its, some us⟩)
    (hunit : GoMap.find us inp.unitInstanceId = some unit)
    (hitem : inp.itemInstanceId = some iid) (hiid : iid ≠ "")
    (hfind : GoMap.find its iid = some item)
    (hmm : slotMatches inp.slotName item.slot = false) :
    (rpcEquipItem uid (.ok inp) now s).res = .error ⟨CodeInvalidArg, "item_slot_mismatch"⟩ ∧
    (rpcEquipItem uid (.ok inp) now s).store.inventory = s.inventory ∧
    ∀ r ∈ (rpcEquipItem uid (.ok inp) now s).writes,
      r.collection ≠ CollectionInventory := by
  have hs0 : inp.slotName ≠ "" := by
    intro hc
    rw [hc] at hslot
    exact absurd hslot (by decide)
  refine ⟨?_, ?_, ?_⟩
  · simp [rpcEquipItem, hu, hid, hs0, hslot, ensure_inv, repairInventory, hsi, hunit,
      hitem, hiid, hfind, hmm]
  · simp only [rpcEquipItem, if_neg hu]
    simp [hid, hs0, hslot, ensure_inv, repairInventory, hsi, hunit, hitem, hiid, hfind,
      hmm, ensure_store_inventory]
  · simp only [rpcEquipItem, if_neg hu]
    simp [hid, hs0, hslot, ensure_inv, repairInventory, hsi, hunit, hitem, hiid, hfind, hmm]
    intro r hr
    exact ensure_writes_not_inventory _ _ _ _ r hr

/-- C8: the bootstrap path is idempotent — a second call (with any supplied
username and clock) returns the same profile, wallet and repaired inventory,
changes nothing, and writes nothing; when all three records exist it returns
them as stored (repairing an inventory record that lacks one of its maps to
the empty map); for a fresh user it creates and persists exactly a profile
(username defaulted from the user id when none is supplied) and a wallet
with gold 0, and returns an empty inventory. -/
theorem bootstrap_idempotent (uid u1 u2 n1 n2 : String) (s : UserStore) :
    (ensureProfileAndWallet uid u2 n2 (ensureProfileAndWallet uid u1 n1 s).store =
      ⟨(ensureProfileAndWallet uid u1 n1 s).profile,
       (ensureProfileAndWallet uid u1 n1 s).wallet,
       (ensureProfileAndWallet uid u1 n1 s).inv,
       (ensureProfileAndWallet uid u1 n1 s).store, []⟩) ∧
    (∀ p w si, s.profile = some p → s.wallet = some w → s.inventory = some si →
      ensureProfileAndWallet uid u1 n1 s =
        ⟨p, w, ⟨si.items.getD [], si.units.getD []⟩, s, []⟩) ∧
    (s.profile = none → s.wallet = none → s.inventory = none →
      ensureProfileAndWallet uid u1 n1 s =
        ⟨⟨defaultUsername uid u1, n1⟩, ⟨0⟩, ⟨[], []⟩,
         { s with profile := some ⟨defaultUsername uid u1, n1⟩, wallet := some ⟨0⟩ },
         [writeReq uid CollectionProfile StorageKeyProfile
            (.profileV ⟨defaultUsername uid u1, n1⟩),
          writeReq uid CollectionWallet StorageKeyWallet (.walletV ⟨0⟩)]⟩) := by
  refine ⟨?_, ?_, ?_⟩
  · rw [ensure_full uid u2 n2 (ensure_store_profile uid u1 n1 s)
      (ensure_store_wallet uid u1 n1 s), ensure_store_inventory,
      ← ensure_inv uid u1 n1 s]
  · intro p w si h1 h2 h3
    rw [ensure_full uid u1 n1 h1 h2]
    simp [repairInventory, h3]
  · intro h1 h2 h3
    rw [ensure_fresh uid u1 n1 h1 h2]
    simp [repairInventory, h3]

/-- C9: no operation mutates an existing wallet record — after any of the
five operations the wallet record is exactly what it was, and no issued
write targets the wallet collection. -/
theorem wallet_frame (uid username newId now : String)
    (env : Option (List (String × String)))
    (pC : Payload CreateUnitPayload) (pG : Payload GrantItemPayload)
    (pE : Payload EquipItemPayload) (pF : Payload ComputeFinalStatsPayload)
    {s : UserStore} {w : Wallet} (hw : s.wallet = some w) :
    ((rpcGetState uid username now s).store.wallet = some w ∧
      ∀ r ∈ (rpcGetState uid username now s).writes, r.collection ≠ CollectionWallet) ∧
    ((rpcCreateUnit uid pC newId now s).store.wallet = some w ∧
      ∀ r ∈ (rpcCreateUnit uid pC newId now s).writes, r.collection ≠ CollectionWallet) ∧
    ((rpcGrantItem uid env pG newId now s).store.wallet = some w ∧
      ∀ r ∈ (rpcGrantItem uid env pG newId now s).writes, r.collection ≠ CollectionWallet) ∧
    ((rpcEquipItem uid pE now s).store.wallet = some w ∧
      ∀ r ∈ (rpcEquipItem uid pE now s).writes, r.collection ≠ CollectionWallet) ∧
    ((rpcComputeFinalStats uid pF now s).store.wallet = some w ∧
      ∀ r ∈ (rpcComputeFinalStats uid pF now s).writes, r.collection ≠ CollectionWallet) :=
  ⟨wallet_getState uid username now hw,
   wallet_createUnit uid pC newId now hw,
   wallet_grantItem uid env pG newId now hw,
   wallet_equipItem uid pE now hw,
   wallet_computeStats uid pF now hw⟩

/-- C10: whenever the server-side admin secret resolves to the empty string
(no env map, no `ADMIN_SECRET` entry, or an empty one), `rpc_grant_item`
with any parsed payload — including one whose `adminSecret` is itself empty
— fails with PermissionDenied (`admin_only`), leaves the store untouched,
and issues no write; the result does not depend on the store at all. -/
theorem grantItem_admin_gate (uid : String) (env : Option (List (String × String)))
    (inp : GrantItemPayload) (newId now : String) (s : UserStore)
    (hsec : envAdminSecret env = "") :
    rpcGrantItem uid env (.ok inp) newId now s =
      ⟨.error ⟨CodePermission, "admin_only"⟩, s, []⟩ := by
  simp [rpcGrantItem, hsec]


/-! ## Witnesses -/

/-- Witness for C1: the sample unit with an equipped weapon. -/
theorem computeFinalStats_correct_witness :
    rpcComputeFinalStats "u" (.ok ⟨"u1"⟩) "t1" sampleStore =
      ⟨.ok ⟨"u1", sampleUnit.stats,
        AllowedStats.map fun k =>
          (k, (GoMap.find sampleUnit.stats k).getD 0 +
            equipTotal sampleItems sampleUnit.equipment k)⟩,
       sampleStore, []⟩ :=
  computeFinalStats_correct "u" "u1" "t1" ⟨"alice", "t0"⟩ ⟨0⟩ sampleItems
    [("u1", sampleUnit)] sampleUnit sampleStore (by decide) (by decide) rfl rfl rfl
    (by decide)

/-- Witness for C2: the state after one create-unit call on a fresh user. -/
theorem reachable_invariants_witness :
    ∃ its us,
      (StoredInventory.mk (some [])
        (some [("id1", (⟨"id1", "tpl-knight", "Common", sampleStats,
          [("weapon", ""), ("armor", ""), ("relic", "")]⟩ : UnitInstance))])).items =
            some its ∧
      (StoredInventory.mk (some [])
        (some [("id1", (⟨"id1", "tpl-knight", "Common", sampleStats,
          [("weapon", ""), ("armor", ""), ("relic", "")]⟩ : UnitInstance))])).units =
            some us ∧
      ∀ q ∈ us,
        (GoMap.keys q.2.stats).Perm AllowedStats ∧
        (GoMap.keys q.2.equipment).Perm EquipmentSlotKeys ∧
        ∀ p ∈ q.2.equipment, p.2 ≠ "" →
          ∃ item, GoMap.find its p.2 = some item ∧ slotMatches p.1 item.slot = true :=
  reachable_invariants
    (Reachable.createUnit "u" (.ok ⟨"tpl-knight", "Common", sampleStats⟩) "id1" "t0"
      Reachable.init) _ (by decide)

/-- Witness for the amended C3: a failing create-unit writes nothing, an
equip failing its slot-name enum check (before the bootstrap) writes
nothing and leaves the store untouched, and a failing equip performs at
most one (here zero) inventory writes. -/
theorem write_discipline_witness :
    (rpcCreateUnit "u1" .missing "id" "t0" emptyStore).writes = [] ∧
    ((rpcEquipItem "u1" (.ok ⟨"u9", "hat", some "i1"⟩) "t0" sampleStore).writes = [] ∧
      (rpcEquipItem "u1" (.ok ⟨"u9", "hat", some "i1"⟩) "t0" sampleStore).store =
        sampleStore) ∧
    ((rpcEquipItem "u1" (.ok ⟨"u9", "weapon", none⟩) "t0" emptyStore).writes.filter
      isInventoryWrite).length ≤ 1 :=
  ⟨(write_discipline "u1" "" "id" "t0" none .missing .missing
      (.ok ⟨"u9", "weapon", none⟩) .missing emptyStore).1 (by decide),
   (write_discipline "u1" "" "id" "t0" none .missing .missing
      (.ok ⟨"u9", "hat", some "i1"⟩) .missing sampleStore).2.2.2.1
     ⟨"u9", "hat", some "i1"⟩
     (Or.inr (Or.inr (Or.inr ⟨rfl, Or.inr (Or.inr (by decide))⟩))),
   (write_discipline "u1" "" "id" "t0" none .missing .missing
      (.ok ⟨"u9", "weapon", none⟩) .missing emptyStore).2.2.2.2.2.2.2.2.2⟩

/-- Witness for C5: a complete canonical stat map passes; an empty one fails
the size check with the size error. -/
theorem validateUnitStats_spec_witness :
    validateUnitStats sampleStats = .ok () ∧
    validateUnitStats [] = .error "stats must contain exactly the 7 allowed keys" :=
  ⟨(validateUnitStats_spec sampleStats).1.mpr (by decide),
   (validateUnitStats_spec []).2.1 (by decide)⟩

/-- Witness for C6: creating a unit from the sample stats. -/
theorem createUnit_valid_witness :
    ∃ u : UnitInstance,
      (rpcCreateUnit "u" (.ok ⟨"tpl-knight", "Common", sampleStats⟩) "id1" "t0"
        emptyStore).res = .ok u ∧
      u.stats = sampleStats ∧ (GoMap.keys u.stats).Perm AllowedStats ∧
      u.equipment = [("weapon", ""), ("armor", ""), ("relic", "")] :=
  createUnit_valid "u" "id1" "t0" ⟨"tpl-knight", "Common", sampleStats⟩ emptyStore
    (by decide) (by decide) (by decide) (by decide)

/-- Witness for C7: equipping the Armor-slot sample item into the weapon
slot fails and leaves the persisted inventory unchanged. -/
theorem equip_slot_mismatch_witness :
    (rpcEquipItem "u" (.ok ⟨"u1", "weapon", some "i2"⟩) "t1" sampleStore).res =
      .error ⟨CodeInvalidArg, "item_slot_mismatch"⟩ ∧
    (rpcEquipItem "u" (.ok ⟨"u1", "weapon", some "i2"⟩) "t1" sampleStore).store.inventory =
      sampleStore.inventory :=
  ⟨(equip_slot_mismatch "u" "t1" ⟨"u1", "weapon", some "i2"⟩ sampleStore sampleItems
      [("u1", sampleUnit)] sampleUnit sampleArmor "i2" (by decide) (by decide) (by decide)
      rfl (by decide) rfl (by decide) (by decide) (by decide)).1,
   (equip_slot_mismatch "u" "t1" ⟨"u1", "weapon", some "i2"⟩ sampleStore sampleItems
      [("u1", sampleUnit)] sampleUnit sampleArmor "i2" (by decide) (by decide) (by decide)
      rfl (by decide) rfl (by decide) (by decide) (by decide)).2.1⟩

/-- Witness for C8: bootstrapping a fresh user creates exactly the defaulted
profile and the zero wallet. -/
theorem bootstrap_idempotent_witness :
    ensureProfileAndWallet "u1" "" "t0" emptyStore =
      ⟨⟨defaultUsername "u1" "", "t0"⟩, ⟨0⟩, ⟨[], []⟩,
       { emptyStore with
         profile := some ⟨defaultUsername "u1" "", "t0"⟩
         wallet := some ⟨0⟩ },
       [writeReq "u1" CollectionProfile StorageKeyProfile
          (.profileV ⟨defaultUsername "u1" "", "t0"⟩),
        writeReq "u1" CollectionWallet StorageKeyWallet (.walletV ⟨0⟩)]⟩ :=
  (bootstrap_idempotent "u1" "" "x" "t0" "t9" emptyStore).2.2 rfl rfl rfl

/-- Witness for C9: the wallet record survives a create-unit and an equip
unchanged. -/
theorem wallet_frame_witness :
    (rpcCreateUnit "u" (.ok ⟨"tpl-knight", "Common", sampleStats⟩) "id1" "t0"
      sampleStore).store.wallet = some ⟨0⟩ ∧
    (rpcEquipItem "u" (.ok ⟨"u1", "weapon", some "i1"⟩) "t0"
      sampleStore).store.wallet = some ⟨0⟩ :=
  ⟨(@wallet_frame "u" "" "id1" "t0" none (.ok ⟨"tpl-knight", "Common", sampleStats⟩)
      .missing (.ok ⟨"u1", "weapon", some "i1"⟩) .missing sampleStore ⟨0⟩ rfl).2.1.1,
   (@wallet_frame "u" "" "id1" "t0" none (.ok ⟨"tpl-knight", "Common", sampleStats⟩)
      .missing (.ok ⟨"u1", "weapon", some "i1"⟩) .missing sampleStore ⟨0⟩ rfl).2.2.2.1.1⟩

/-- Witness for C10: no env at all, and an empty request secret, still
rejected without touching the store. -/
theorem grantItem_admin_gate_witness :
    rpcGrantItem "u1" none
      (.ok ⟨"", "tpl-sword", "Rare", "Weapon", [("melee", 3)], "", ""⟩) "id1" "t0"
      sampleStore =
      ⟨.error ⟨CodePermission, "admin_only"⟩, sampleStore, []⟩ :=
  grantItem_admin_gate "u1" none ⟨"", "tpl-sword", "Rare", "Weapon", [("melee", 3)], "", ""⟩
    "id1" "t0" sampleStore rfl

end CardGame
